import Mathlib

/-!
Shallow embedding of the OpenMap WebSocket presence hub (`src/main.go`).

The Go program keeps a `Hub` with a set of clients (`map[*Client]bool`),
a presence map `locations : map[string]LocationData`, and an unbuffered
`broadcast chan []byte`.  Each client owns a buffered outbound channel
`Send chan []byte` of capacity 256.  We embed:

  * Go maps as association lists with recursive lookup/update/delete;
  * a client's `Send` channel as a `SendQueue` (buffer list plus a
    `closed` flag); a non-blocking `select`-send on it either enqueues
    (buffer shorter than the capacity), takes the `default` branch
    (buffer full), or — when the channel is closed — corresponds to a
    Go run-time panic, modelled as `Except.error ()`;
  * `close` of an already-closed channel likewise as `Except.error ()`;
  * float64 latitude/longitude as `Int`: the server never computes with
    them, it only stores and forwards, so the carrier type is opaque;
  * `json.Marshal` of the server's own envelopes as the identity on a
    `ServerMsg` value (it cannot fail on these shapes), and the two
    client-side decode layers of `readPump` as a `Frame`/`Payload` sum;
  * the hub's unbuffered `broadcast` channel by a `receiverReady` flag:
    `broadcastMessage` (a `select` with `default`) hands the message to
    the run loop when a receiver is ready and drops it (log line only)
    otherwise.  When `broadcastMessage` is invoked from inside
    `Hub.run`'s own `register`/`unregister` cases, the run loop — the
    channel's sole receiver — is busy executing that very case, so the
    rendezvous can never happen and `receiverReady` is `false`.

Each step of `Hub.run`, of `updateLocation`, and of `readPump` becomes a
function from hub state to `Except Unit (state, events)`, `.error ()`
standing for a Go panic inside the hub goroutine.
-/

/-- Identity of a participant (Go `string` username). -/
abbrev Ident := String

/-- Go struct `LocationData` (latitude/longitude are float64 in Go;
they are only stored and forwarded, never computed with, so an opaque
integer carrier is faithful). -/
structure LocationData where
  username : Ident
  latitude : Int
  longitude : Int
  timestamp : Int
deriving DecidableEq, Repr

/-- Go struct `Client` (the connection handle is irrelevant to hub
state; `ID` is a fresh uuid per connection, so distinct connections are
distinct values, mirroring Go pointer identity of `*Client`). -/
structure Client where
  id : String
  username : Ident
deriving DecidableEq, Repr

/-- A serialized server-to-client envelope, i.e. the `[]byte` produced
by `json.Marshal` on a `Message`.  Serialization is injective on the
four shapes the server emits, so envelope values stand for the bytes. -/
inductive ServerMsg where
  | user_connected (username message : String)
  | user_disconnected (username message : String)
  | current_locations (locs : List (Ident × LocationData))
  | location_update (loc : LocationData)
deriving DecidableEq, Repr

/-- State of a client's buffered `Send chan []byte`. -/
structure SendQueue where
  buf : List ServerMsg
  closed : Bool
deriving DecidableEq, Repr

/-- Capacity of `Send` (`make(chan []byte, 256)` in `handleWebSocket`). -/
def sendCap : Nat := 256

/-- A freshly made `Send` channel: empty and open. -/
def emptyQueue : SendQueue := { buf := [], closed := false }

/-- Observable actions of the hub goroutine: direct or fan-out enqueue
onto a client's queue, closing a queue, removing a client from the
active set, and the outcome of a submission to the `broadcast` channel. -/
inductive Event where
  | sent (c : Client) (m : ServerMsg)
  | queueClosed (c : Client)
  | removed (c : Client)
  | broadcastSubmitted (m : ServerMsg)
  | broadcastDropped (m : ServerMsg)
deriving DecidableEq, Repr

/-- Hub state: the active-client set with each client's queue
(`h.clients` plus the per-client `Send` channels) and the presence map
(`h.locations`). -/
structure HubState where
  clients : List (Client × SendQueue)
  locations : List (Ident × LocationData)
deriving DecidableEq, Repr

/-- Lookup in the Go map `h.locations`. -/
def lookupLoc (k : Ident) : List (Ident × LocationData) → Option LocationData
  | [] => none
  | p :: rest => if p.1 = k then some p.2 else lookupLoc k rest

/-- Go `h.locations[k] = v`: overwrite the entry, inserting if absent. -/
def setLoc (k : Ident) (v : LocationData) :
    List (Ident × LocationData) → List (Ident × LocationData)
  | [] => [(k, v)]
  | p :: rest => if p.1 = k then (k, v) :: rest else p :: setLoc k v rest

/-- Go `delete(h.locations, k)`. -/
def delLoc (k : Ident) : List (Ident × LocationData) → List (Ident × LocationData)
  | [] => []
  | p :: rest => if p.1 = k then delLoc k rest else p :: delLoc k rest

/-- Membership lookup in `h.clients` (Go `h.clients[client]`, keyed by
pointer identity), returning the client's queue. -/
def queueOf (c : Client) : List (Client × SendQueue) → Option SendQueue
  | [] => none
  | p :: rest => if p.1 = c then some p.2 else queueOf c rest

/-- Go `delete(h.clients, client)`. -/
def removeClient (c : Client) : List (Client × SendQueue) → List (Client × SendQueue)
  | [] => []
  | p :: rest => if p.1 = c then removeClient c rest else p :: removeClient c rest

/-- Non-blocking send on a client's `Send` channel:
`select { case client.Send <- m: default: }`.  If the channel is
closed, the send case is ready and proceeds by panicking (`.error`).
Otherwise the message is enqueued when the buffer has room (`true`) and
the `default` branch is taken when it is full (`false`). -/
def trySend (q : SendQueue) (m : ServerMsg) : Except Unit (SendQueue × Bool) :=
  if q.closed then .error ()
  else if q.buf.length < sendCap then .ok ({ q with buf := q.buf ++ [m] }, true)
  else .ok (q, false)

/-- Go `close(ch)`: panics on an already-closed channel. -/
def closeChan (q : SendQueue) : Except Unit SendQueue :=
  if q.closed then .error () else .ok { q with closed := true }

/-- `Hub.broadcastMessage`: a non-blocking `select`-send on the hub's
unbuffered `broadcast` channel.  `receiverReady` says whether the run
loop is parked at its `select` at this instant; if so the message is
handed over (`some`), otherwise the `default` branch logs
"Broadcast channel is full" and the message is dropped (`none`).
`json.Marshal` cannot fail on the envelope shapes the server builds, so
the marshal-error branch is unreachable and not modelled. -/
def broadcastMessage (receiverReady : Bool) (m : ServerMsg) : Option ServerMsg × Event :=
  if receiverReady then (some m, Event.broadcastSubmitted m)
  else (none, Event.broadcastDropped m)

/-- The `user_connected` notice built in `Hub.run`'s register case. -/
def userConnectedMsg (c : Client) : ServerMsg :=
  ServerMsg.user_connected c.username (c.username ++ " が接続しました")

/-- The `user_disconnected` notice built in `Hub.run`'s unregister case. -/
def userDisconnectedMsg (c : Client) : ServerMsg :=
  ServerMsg.user_disconnected c.username (c.username ++ " が切断しました")

/-- `Hub.sendCurrentLocations`: if the presence map is non-empty, build
the `current_locations` envelope and try a non-blocking send to the new
client's own queue; on a full queue the `default` branch closes the
queue (and does nothing else). -/
def sendCurrentLocations (locs : List (Ident × LocationData)) (c : Client)
    (q : SendQueue) : Except Unit (SendQueue × List Event) :=
  if locs.isEmpty then .ok (q, [])
  else
    match trySend q (ServerMsg.current_locations locs) with
    | .error e => .error e
    | .ok (q1, true) => .ok (q1, [Event.sent c (ServerMsg.current_locations locs)])
    | .ok (q1, false) =>
      match closeChan q1 with
      | .error e => .error e
      | .ok q2 => .ok (q2, [Event.queueClosed c])

/-- The `case client := <-h.register` branch of `Hub.run`: add the
client to the active set, send it the presence snapshot, then submit
the `user_connected` notice to the broadcast channel.  The submission
happens from inside the run loop — the channel's sole receiver — so no
receiver can be ready and the first component of `broadcastMessage` is
necessarily `none`: the notice never reaches a fan-out. -/
def registerStep (st : HubState) (c : Client) (q : SendQueue) :
    Except Unit (HubState × List Event) :=
  match sendCurrentLocations st.locations c q with
  | .error e => .error e
  | .ok (q1, ev) =>
    .ok ({ clients := st.clients ++ [(c, q1)], locations := st.locations },
         ev ++ [(broadcastMessage false (userConnectedMsg c)).2])

/-- The `case client := <-h.unregister` branch of `Hub.run`: if the
client is present, delete it from the set, close its queue, delete its
presence entry, and submit `user_disconnected` (again from inside the
run loop, so the submission is dropped at the channel). -/
def unregisterStep (st : HubState) (c : Client) : Except Unit (HubState × List Event) :=
  match queueOf c st.clients with
  | none => .ok (st, [])
  | some q =>
    match closeChan q with
    | .error e => .error e
    | .ok _ =>
      .ok ({ clients := removeClient c st.clients,
             locations := delLoc c.username st.locations },
           [Event.removed c, Event.queueClosed c,
            (broadcastMessage false (userDisconnectedMsg c)).2])

/-- The fan-out loop of the `case message := <-h.broadcast` branch:
for each client try a non-blocking enqueue; on a full queue close the
channel and delete the client from the set, then keep iterating. -/
def fanOut (m : ServerMsg) :
    List (Client × SendQueue) → Except Unit (List (Client × SendQueue) × List Event)
  | [] => .ok ([], [])
  | (c, q) :: rest =>
    match trySend q m with
    | .error e => .error e
    | .ok (q1, true) =>
      match fanOut m rest with
      | .error e => .error e
      | .ok (rest1, ev) => .ok ((c, q1) :: rest1, Event.sent c m :: ev)
    | .ok (_, false) =>
      match closeChan q with
      | .error e => .error e
      | .ok _ =>
        match fanOut m rest with
        | .error e => .error e
        | .ok (rest1, ev) => .ok (rest1, Event.queueClosed c :: Event.removed c :: ev)

/-- The `case message := <-h.broadcast` branch of `Hub.run`. -/
def processBroadcast (st : HubState) (m : ServerMsg) : Except Unit (HubState × List Event) :=
  match fanOut m st.clients with
  | .error e => .error e
  | .ok (cs, ev) => .ok ({ clients := cs, locations := st.locations }, ev)

/-- `Hub.updateLocation`: overwrite the presence entry under the mutex,
then submit a `location_update` envelope via `broadcastMessage`.  It is
called from a client's `readPump` goroutine, so the run loop may or may
not be ready to receive (`receiverReady`); when it is, the rendezvous
on the unbuffered channel hands the message straight to the run loop's
broadcast case, which fans it out. -/
def updateLocationStep (st : HubState) (u : Ident) (loc : LocationData)
    (receiverReady : Bool) : Except Unit (HubState × List Event) :=
  let st1 : HubState := { clients := st.clients, locations := setLoc u loc st.locations }
  match broadcastMessage receiverReady (ServerMsg.location_update loc) with
  | (none, e) => .ok (st1, [e])
  | (some m, e) =>
    match processBroadcast st1 m with
    | .error x => .error x
    | .ok (st2, ev) => .ok (st2, e :: ev)

/-- One `writePump` receive: the client's outbound loop dequeues the
head of its own queue (channel receive never panics). -/
def dequeueStep (st : HubState) (c : Client) : HubState :=
  { clients := st.clients.map
      (fun p => if p.1 = c then (p.1, { p.2 with buf := p.2.buf.drop 1 }) else p),
    locations := st.locations }

/-- Result of decoding `msg.Data` (Go `json.Marshal` of the decoded
`interface{}` followed by `json.Unmarshal` into `LocationData`): either
a well-shaped record or a recoverable per-message decode failure
(either of the two logged `continue` branches). -/
inductive Payload where
  | loc (d : LocationData)
  | bad
deriving DecidableEq, Repr

/-- A frame read from the connection, after the envelope-level
`json.Unmarshal` into `Message`: either unparsable, or an envelope with
its `type` tag and payload. -/
inductive Frame where
  | invalid
  | envelope (tag : String) (data : Payload)
deriving DecidableEq, Repr

/-- What `conn.ReadMessage` produced: a transport error or a frame. -/
inductive ReadEvent where
  | connError
  | frame (f : Frame)
deriving DecidableEq, Repr

/-- Whether the inbound loop keeps running after a step.  `exits`
means `break`: the deferred `hub.unregister <- c` then fires. -/
inductive LoopAction where
  | continues
  | exits
deriving DecidableEq, Repr

/-- One iteration of `Client.readPump`: a transport error breaks the
loop; an unparsable envelope is logged and skipped (`continue`); a
`location_update` with a well-shaped payload has its username field
forcibly overwritten with the client's own username and is forwarded to
`hub.updateLocation`; a badly shaped payload or an unrecognized kind is
skipped. -/
def readPumpStep (st : HubState) (c : Client) (receiverReady : Bool) :
    ReadEvent → Except Unit (HubState × List Event × LoopAction)
  | ReadEvent.connError => .ok (st, [], LoopAction.exits)
  | ReadEvent.frame Frame.invalid => .ok (st, [], LoopAction.continues)
  | ReadEvent.frame (Frame.envelope tag p) =>
    if tag = "location_update" then
      match p with
      | Payload.bad => .ok (st, [], LoopAction.continues)
      | Payload.loc d =>
        match updateLocationStep st c.username { d with username := c.username }
            receiverReady with
        | .error e => .error e
        | .ok (st1, ev) => .ok (st1, ev, LoopAction.continues)
    else .ok (st, [], LoopAction.continues)

/-- The hub as created by `newHub`. -/
def initHub : HubState := { clients := [], locations := [] }

/-- States the hub goroutine can actually be in, under the operations
the program performs: registrations of fresh clients (handleWebSocket
always registers a brand-new client whose `Send` channel is newly made,
hence empty and open), unregistrations, location updates (with the run
loop ready or not), and writePump dequeues.  A step that would panic
(`.error`) has no successor state. -/
inductive Reachable : HubState → Prop
  | init : Reachable initHub
  | register (st st1 : HubState) (c : Client) (ev : List Event) :
      Reachable st → queueOf c st.clients = none →
      registerStep st c emptyQueue = .ok (st1, ev) → Reachable st1
  | unregister (st st1 : HubState) (c : Client) (ev : List Event) :
      Reachable st → unregisterStep st c = .ok (st1, ev) → Reachable st1
  | update (st st1 : HubState) (u : Ident) (loc : LocationData) (r : Bool)
      (ev : List Event) :
      Reachable st → updateLocationStep st u loc r = .ok (st1, ev) → Reachable st1
  | dequeue (st : HubState) (c : Client) :
      Reachable st → Reachable (dequeueStep st c)

/-- All queues in an active-client list are open. -/
def queuesOpen (l : List (Client × SendQueue)) : Bool :=
  l.all (fun p => !p.2.closed)

/-- The client list produced by a fan-out over open queues: clients
with room get the message appended, clients with a full queue are
removed. -/
def deliverAll (m : ServerMsg) : List (Client × SendQueue) → List (Client × SendQueue)
  | [] => []
  | (c, q) :: rest =>
    if q.buf.length < sendCap then (c, { q with buf := q.buf ++ [m] }) :: deliverAll m rest
    else deliverAll m rest

/-- The event trace of a fan-out over open queues. -/
def fanEvents (m : ServerMsg) : List (Client × SendQueue) → List Event
  | [] => []
  | (c, q) :: rest =>
    if q.buf.length < sendCap then Event.sent c m :: fanEvents m rest
    else Event.queueClosed c :: Event.removed c :: fanEvents m rest

/-- The new client's queue right after the registration snapshot send,
for a freshly made (empty, open) queue. -/
def snapQueue (locs : List (Ident × LocationData)) : SendQueue :=
  if locs.isEmpty then emptyQueue
  else { buf := [ServerMsg.current_locations locs], closed := false }

/-- The events of the registration snapshot send for a fresh queue. -/
def snapEvents (locs : List (Ident × LocationData)) (c : Client) : List Event :=
  if locs.isEmpty then [] else [Event.sent c (ServerMsg.current_locations locs)]

/-- Combined result of `updateLocationStep` on a state whose queues are
all open: the store is overwritten in place and, when the run loop was
ready, the fan-out happens on the updated state. -/
def updResult (st : HubState) (u : Ident) (loc : LocationData) (r : Bool) :
    HubState × List Event :=
  if r then
    ({ clients := deliverAll (ServerMsg.location_update loc) st.clients,
       locations := setLoc u loc st.locations },
     Event.broadcastSubmitted (ServerMsg.location_update loc)
       :: fanEvents (ServerMsg.location_update loc) st.clients)
  else
    ({ clients := st.clients, locations := setLoc u loc st.locations },
     [Event.broadcastDropped (ServerMsg.location_update loc)])

/-- Every queue in the list has room for one more message. -/
def allHaveRoom (l : List (Client × SendQueue)) : Bool :=
  l.all (fun p => decide (p.2.buf.length < sendCap))

/-! ## Sample data for concrete instances -/

/-- A sample connected client. -/
def aliceC : Client := { id := "id-alice", username := "alice" }

/-- A second sample connected client. -/
def bobC : Client := { id := "id-bob", username := "bob" }

/-- The location record of the end-to-end scenario (35.0 / 135.0 as
opaque integer carriers). -/
def sampleLoc : LocationData :=
  { username := "alice", latitude := 35, longitude := 135, timestamp := 1000 }

/-- A saturated outbound queue: 256 undrained messages. -/
def fullQueue : SendQueue :=
  { buf := List.replicate sendCap (ServerMsg.location_update sampleLoc), closed := false }

/-- A hub state with a healthy client (alice) and a saturated one (bob). -/
def wStateAB : HubState :=
  { clients := [(aliceC, emptyQueue), (bobC, fullQueue)], locations := [] }

/-- A hub state with one healthy client and an empty store. -/
def wStateA : HubState :=
  { clients := [(aliceC, emptyQueue)], locations := [] }

/-- A hub state with no client and one presence entry. -/
def wStateLoc : HubState :=
  { clients := [], locations := [("alice", sampleLoc)] }

-- Equality of `Except` results is decidable, so concrete runs of the
-- step functions can be checked by evaluation.
deriving instance DecidableEq for Except

set_option maxRecDepth 40000

/-! ## Lemmas about the map embeddings -/

theorem lookupLoc_setLoc_self (k : Ident) (v : LocationData)
    (l : List (Ident × LocationData)) : lookupLoc k (setLoc k v l) = some v := by
  induction l with
  | nil => simp [setLoc, lookupLoc]
  | cons p rest ih =>
    by_cases h : p.1 = k
    · simp [setLoc, h, lookupLoc]
    · simp [setLoc, h, lookupLoc, ih]

theorem lookupLoc_setLoc_ne (k u : Ident) (v : LocationData)
    (l : List (Ident × LocationData)) (h : k ≠ u) :
    lookupLoc k (setLoc u v l) = lookupLoc k l := by
  have hu : ¬ u = k := fun hh => h hh.symm
  induction l with
  | nil => simp [setLoc, lookupLoc, hu]
  | cons p rest ih =>
    by_cases hp : p.1 = u
    · have hpk : ¬ p.1 = k := by rw [hp]; exact hu
      simp [setLoc, hp, lookupLoc, hu, hpk]
    · simp [setLoc, hp, lookupLoc, ih]

theorem lookupLoc_delLoc (k u : Ident) (l : List (Ident × LocationData)) :
    lookupLoc k (delLoc u l) = if k = u then none else lookupLoc k l := by
  induction l with
  | nil => cases hk : decide (k = u) <;> simp_all [delLoc, lookupLoc]
  | cons p rest ih =>
    by_cases hp : p.1 = u
    · by_cases hk : k = u
      · subst hk
        simp [delLoc, hp, ih]
      · have hu : ¬ u = k := fun hh => hk hh.symm
        simp [delLoc, hp, lookupLoc, hu, hk, ih]
    · by_cases hpk : p.1 = k
      · have hk : ¬ k = u := fun hh => hp (hpk.trans hh)
        simp [delLoc, hp, lookupLoc, hpk, hk]
      · simp [delLoc, hp, lookupLoc, hpk, ih]

theorem queuesOpen_cons (p : Client × SendQueue) (rest : List (Client × SendQueue)) :
    queuesOpen (p :: rest) = (!p.2.closed && queuesOpen rest) := rfl

theorem queueOf_removeClient (c : Client) (l : List (Client × SendQueue)) :
    queueOf c (removeClient c l) = none := by
  induction l with
  | nil => simp [removeClient, queueOf]
  | cons p rest ih =>
    by_cases hp : p.1 = c
    · simp [removeClient, hp, ih]
    · simp [removeClient, hp, queueOf, ih]

theorem queuesOpen_removeClient (c : Client) (l : List (Client × SendQueue))
    (h : queuesOpen l = true) : queuesOpen (removeClient c l) = true := by
  induction l with
  | nil => simpa [removeClient] using h
  | cons p rest ih =>
    rw [queuesOpen_cons, Bool.and_eq_true] at h
    by_cases hp : p.1 = c
    · rw [removeClient, if_pos hp]
      exact ih h.2
    · rw [removeClient, if_neg hp, queuesOpen_cons, Bool.and_eq_true]
      exact ⟨h.1, ih h.2⟩

theorem queueOf_open (c : Client) (q : SendQueue) (l : List (Client × SendQueue))
    (hall : queuesOpen l = true) (h : queueOf c l = some q) : q.closed = false := by
  induction l with
  | nil => simp [queueOf] at h
  | cons p rest ih =>
    rw [queuesOpen_cons, Bool.and_eq_true] at hall
    by_cases hp : p.1 = c
    · rw [queueOf, if_pos hp] at h
      cases h
      simpa using hall.1
    · rw [queueOf, if_neg hp] at h
      exact ih hall.2 h

/-! ## Equations for the hub's steps on well-formed states -/

theorem snapQueue_closed (locs : List (Ident × LocationData)) :
    (snapQueue locs).closed = false := by
  by_cases h : locs.isEmpty <;> simp [snapQueue, emptyQueue, h]

theorem sendCurrentLocations_fresh (locs : List (Ident × LocationData)) (c : Client) :
    sendCurrentLocations locs c emptyQueue = .ok (snapQueue locs, snapEvents locs c) := by
  by_cases h : locs.isEmpty
  · simp [sendCurrentLocations, snapQueue, snapEvents, h]
  · simp [sendCurrentLocations, snapQueue, snapEvents, h, trySend, emptyQueue, sendCap]

theorem registerStep_fresh (st : HubState) (c : Client) :
    registerStep st c emptyQueue =
      .ok ({ clients := st.clients ++ [(c, snapQueue st.locations)],
             locations := st.locations },
           snapEvents st.locations c ++ [Event.broadcastDropped (userConnectedMsg c)]) := by
  simp [registerStep, sendCurrentLocations_fresh, broadcastMessage]

theorem unregisterStep_absent (st : HubState) (c : Client)
    (h : queueOf c st.clients = none) : unregisterStep st c = .ok (st, []) := by
  simp [unregisterStep, h]

theorem unregisterStep_present (st : HubState) (c : Client) (q : SendQueue)
    (hq : queueOf c st.clients = some q) (hqo : q.closed = false) :
    unregisterStep st c =
      .ok ({ clients := removeClient c st.clients,
             locations := delLoc c.username st.locations },
           [Event.removed c, Event.queueClosed c,
            Event.broadcastDropped (userDisconnectedMsg c)]) := by
  simp [unregisterStep, hq, closeChan, hqo, broadcastMessage]

theorem fanOut_open (m : ServerMsg) (l : List (Client × SendQueue))
    (h : queuesOpen l = true) : fanOut m l = .ok (deliverAll m l, fanEvents m l) := by
  induction l with
  | nil => simp [fanOut, deliverAll, fanEvents]
  | cons p rest ih =>
    obtain ⟨c, q⟩ := p
    rw [queuesOpen_cons, Bool.and_eq_true] at h
    have hqo : q.closed = false := by simpa using h.1
    by_cases hr : q.buf.length < sendCap
    · simp [fanOut, trySend, hqo, hr, ih h.2, deliverAll, fanEvents]
    · simp [fanOut, trySend, hqo, hr, closeChan, ih h.2, deliverAll, fanEvents]

theorem queuesOpen_deliverAll (m : ServerMsg) (l : List (Client × SendQueue))
    (h : queuesOpen l = true) : queuesOpen (deliverAll m l) = true := by
  induction l with
  | nil => simpa [deliverAll] using h
  | cons p rest ih =>
    obtain ⟨c, q⟩ := p
    rw [queuesOpen_cons, Bool.and_eq_true] at h
    by_cases hr : q.buf.length < sendCap
    · rw [deliverAll, if_pos hr, queuesOpen_cons, Bool.and_eq_true]
      exact ⟨h.1, ih h.2⟩
    · rw [deliverAll, if_neg hr]
      exact ih h.2

theorem processBroadcast_open (st : HubState) (m : ServerMsg)
    (h : queuesOpen st.clients = true) :
    processBroadcast st m =
      .ok ({ clients := deliverAll m st.clients, locations := st.locations },
           fanEvents m st.clients) := by
  simp [processBroadcast, fanOut_open m st.clients h]

theorem updateLocationStep_notReady (st : HubState) (u : Ident) (loc : LocationData) :
    updateLocationStep st u loc false =
      .ok ({ clients := st.clients, locations := setLoc u loc st.locations },
           [Event.broadcastDropped (ServerMsg.location_update loc)]) := rfl

theorem updateLocationStep_eq (st : HubState) (u : Ident) (loc : LocationData)
    (r : Bool) (h : queuesOpen st.clients = true) :
    updateLocationStep st u loc r = .ok (updResult st u loc r) := by
  cases r
  · simp [updateLocationStep_notReady, updResult]
  · have hb := processBroadcast_open
      { clients := st.clients, locations := setLoc u loc st.locations }
      (ServerMsg.location_update loc) h
    simp [updateLocationStep, broadcastMessage, hb, updResult]

theorem fanOut_closed (m : ServerMsg) (l : List (Client × SendQueue))
    (p : Client × SendQueue) (hmem : p ∈ l) (hcl : p.2.closed = true) :
    fanOut m l = .error () := by
  induction l with
  | nil => cases hmem
  | cons hd rest ih =>
    obtain ⟨c, q⟩ := hd
    rcases List.mem_cons.mp hmem with hh | ht
    · subst hh
      have hq : q.closed = true := hcl
      simp [fanOut, trySend, hq]
    · by_cases hqo : q.closed
      · simp [fanOut, trySend, hqo]
      · by_cases hr : q.buf.length < sendCap
        · simp [fanOut, trySend, hqo, hr, ih ht]
        · simp [fanOut, trySend, hqo, hr, closeChan, ih ht]

theorem queuesOpen_dequeue (st : HubState) (c : Client)
    (h : queuesOpen st.clients = true) :
    queuesOpen (dequeueStep st c).clients = true := by
  rcases st with ⟨cl, locs⟩
  induction cl with
  | nil => simp [dequeueStep, queuesOpen]
  | cons p rest ih =>
    rw [queuesOpen_cons, Bool.and_eq_true] at h
    have ih2 := ih h.2
    by_cases hp : p.1 = c
    · simpa [dequeueStep, queuesOpen_cons, hp, h.1] using ih2
    · simpa [dequeueStep, queuesOpen_cons, hp, h.1] using ih2

theorem deliverAll_map (m : ServerMsg) (l : List (Client × SendQueue))
    (h : allHaveRoom l = true) :
    deliverAll m l = l.map (fun p => (p.1, { p.2 with buf := p.2.buf ++ [m] })) := by
  induction l with
  | nil => simp [deliverAll]
  | cons p rest ih =>
    obtain ⟨c, q⟩ := p
    rw [allHaveRoom, List.all_cons, Bool.and_eq_true] at h
    have hr : q.buf.length < sendCap := by simpa using h.1
    simp [deliverAll, hr, ih h.2]

theorem fanEvents_map (m : ServerMsg) (l : List (Client × SendQueue))
    (h : allHaveRoom l = true) :
    fanEvents m l = l.map (fun p => Event.sent p.1 m) := by
  induction l with
  | nil => simp [fanEvents]
  | cons p rest ih =>
    obtain ⟨c, q⟩ := p
    rw [allHaveRoom, List.all_cons, Bool.and_eq_true] at h
    have hr : q.buf.length < sendCap := by simpa using h.1
    simp [fanEvents, hr, ih h.2]

theorem queuesOpen_append (l1 l2 : List (Client × SendQueue)) :
    queuesOpen (l1 ++ l2) = (queuesOpen l1 && queuesOpen l2) := by
  simp [queuesOpen, List.all_append]

theorem updResult_locations (st : HubState) (u : Ident) (loc : LocationData) (r : Bool) :
    (updResult st u loc r).1.locations = setLoc u loc st.locations := by
  cases r <;> simp [updResult]

/-- Invariant of the hub goroutine: every queue in the active set is
open.  Registration always happens with a freshly made (empty, open)
queue of capacity 256, so the snapshot send can never find it full and
the close-without-remove branch of `sendCurrentLocations` is never
taken; the fan-out's close always comes with removal; unregistration
removes what it closes. -/
theorem reachable_queuesOpen (st : HubState) (h : Reachable st) :
    queuesOpen st.clients = true := by
  induction h with
  | init => rfl
  | register st st1 c ev hr hfresh heq ih =>
    rw [registerStep_fresh] at heq
    simp only [Except.ok.injEq, Prod.mk.injEq] at heq
    rw [← heq.1]
    rw [queuesOpen_append, Bool.and_eq_true]
    refine ⟨ih, ?_⟩
    simp [queuesOpen, snapQueue_closed]
  | unregister st st1 c ev hr heq ih =>
    cases hq : queueOf c st.clients with
    | none =>
      rw [unregisterStep_absent st c hq] at heq
      simp only [Except.ok.injEq, Prod.mk.injEq] at heq
      rw [← heq.1]
      exact ih
    | some q =>
      have hqo := queueOf_open c q st.clients ih hq
      rw [unregisterStep_present st c q hq hqo] at heq
      simp only [Except.ok.injEq, Prod.mk.injEq] at heq
      rw [← heq.1]
      exact queuesOpen_removeClient c st.clients ih
  | update st st1 u loc r ev hr heq ih =>
    rw [updateLocationStep_eq st u loc r ih] at heq
    simp only [Except.ok.injEq] at heq
    have h1 : (updResult st u loc r).1 = st1 := by rw [heq]
    rw [← h1]
    cases r
    · simpa [updResult] using ih
    · simpa [updResult] using queuesOpen_deliverAll (ServerMsg.location_update loc) st.clients ih
  | dequeue st c hr ih => exact queuesOpen_dequeue st c ih

theorem readPumpStep_loc (st : HubState) (c : Client) (r : Bool) (d : LocationData)
    (h : queuesOpen st.clients = true) :
    readPumpStep st c r (ReadEvent.frame (Frame.envelope "location_update" (Payload.loc d))) =
      .ok ((updResult st c.username { d with username := c.username } r).1,
           (updResult st c.username { d with username := c.username } r).2,
           LoopAction.continues) := by
  simp [readPumpStep, updateLocationStep_eq st c.username { d with username := c.username } r h]

theorem mem_deliverAll (m : ServerMsg) (l : List (Client × SendQueue))
    (c : Client) (q : SendQueue) (hmem : (c, q) ∈ l) (hr : q.buf.length < sendCap) :
    (c, { q with buf := q.buf ++ [m] }) ∈ deliverAll m l := by
  induction l with
  | nil => cases hmem
  | cons hd rest ih =>
    obtain ⟨c0, q0⟩ := hd
    rcases List.mem_cons.mp hmem with hh | ht
    · cases hh
      simp [deliverAll, hr]
    · by_cases hr0 : q0.buf.length < sendCap
      · simp only [deliverAll, if_pos hr0]
        exact List.mem_cons_of_mem _ (ih ht)
      · simp only [deliverAll, if_neg hr0]
        exact ih ht

theorem sent_mem_fanEvents (m : ServerMsg) (l : List (Client × SendQueue))
    (c : Client) (q : SendQueue) (hmem : (c, q) ∈ l) (hr : q.buf.length < sendCap) :
    Event.sent c m ∈ fanEvents m l := by
  induction l with
  | nil => cases hmem
  | cons hd rest ih =>
    obtain ⟨c0, q0⟩ := hd
    rcases List.mem_cons.mp hmem with hh | ht
    · cases hh
      simp [fanEvents, hr]
    · by_cases hr0 : q0.buf.length < sendCap
      · simp only [fanEvents, if_pos hr0]
        exact List.mem_cons_of_mem _ (ih ht)
      · simp only [fanEvents, if_neg hr0]
        exact List.mem_cons_of_mem _ (List.mem_cons_of_mem _ (ih ht))

theorem closed_mem_fanEvents (m : ServerMsg) (l : List (Client × SendQueue))
    (c : Client) (q : SendQueue) (hmem : (c, q) ∈ l) (hf : ¬ q.buf.length < sendCap) :
    Event.queueClosed c ∈ fanEvents m l ∧ Event.removed c ∈ fanEvents m l := by
  induction l with
  | nil => cases hmem
  | cons hd rest ih =>
    obtain ⟨c0, q0⟩ := hd
    rcases List.mem_cons.mp hmem with hh | ht
    · cases hh
      simp [fanEvents, hf]
    · by_cases hr0 : q0.buf.length < sendCap
      · simp only [fanEvents, if_pos hr0]
        exact ⟨List.mem_cons_of_mem _ (ih ht).1, List.mem_cons_of_mem _ (ih ht).2⟩
      · simp only [fanEvents, if_neg hr0]
        refine ⟨List.mem_cons_of_mem _ ?_, List.mem_cons_of_mem _ ?_⟩
        · exact List.mem_cons_of_mem _ (ih ht).1
        · exact List.mem_cons_of_mem _ (ih ht).2

theorem unregisterStep_total (st : HubState) (c : Client)
    (hopen : queuesOpen st.clients = true) : unregisterStep st c ≠ Except.error () := by
  cases hq : queueOf c st.clients with
  | none => simp [unregisterStep_absent st c hq]
  | some q =>
    have hqo := queueOf_open c q st.clients hopen hq
    simp [unregisterStep_present st c q hq hqo]

/-! ## Claim theorems -/

/-- C1: every broadcast fan-out by the hub is non-blocking — it returns
a result for every message instead of waiting on any subscriber.  Each
active session whose queue is full at that moment has its delivery
dropped, its queue closed and its entry removed from the active set
(`deliverAll` keeps exactly the sessions with room, appending the
message to their queues; `fanEvents` records `queueClosed`/`removed`
for the saturated ones), while delivery to every other active session
still proceeds. -/
theorem C1_broadcast_nonblocking_drop_policy (st : HubState) (m : ServerMsg)
    (c : Client) (q : SendQueue) (cf : Client) (qf : SendQueue)
    (hopen : queuesOpen st.clients = true)
    (hmem : (c, q) ∈ st.clients) (hroom : q.buf.length < sendCap)
    (hmemf : (cf, qf) ∈ st.clients) (hfull : ¬ qf.buf.length < sendCap) :
    processBroadcast st m =
      .ok ({ clients := deliverAll m st.clients, locations := st.locations },
           fanEvents m st.clients)
    ∧ (c, { q with buf := q.buf ++ [m] }) ∈ deliverAll m st.clients
    ∧ Event.sent c m ∈ fanEvents m st.clients
    ∧ Event.queueClosed cf ∈ fanEvents m st.clients
    ∧ Event.removed cf ∈ fanEvents m st.clients := by
  refine ⟨processBroadcast_open st m hopen, mem_deliverAll m st.clients c q hmem hroom,
    sent_mem_fanEvents m st.clients c q hmem hroom,
    (closed_mem_fanEvents m st.clients cf qf hmemf hfull).1,
    (closed_mem_fanEvents m st.clients cf qf hmemf hfull).2⟩

/-- Witness for C1 at a concrete state: alice has room, bob's queue is
saturated; the location-update broadcast is delivered to alice while
bob is closed and removed. -/
theorem C1_broadcast_nonblocking_drop_policy_witness :
    queuesOpen wStateAB.clients = true
    ∧ emptyQueue.buf.length < sendCap
    ∧ ¬ fullQueue.buf.length < sendCap
    ∧ (processBroadcast wStateAB (ServerMsg.location_update sampleLoc) =
        .ok ({ clients := deliverAll (ServerMsg.location_update sampleLoc) wStateAB.clients,
               locations := wStateAB.locations },
             fanEvents (ServerMsg.location_update sampleLoc) wStateAB.clients)
      ∧ (aliceC, { emptyQueue with buf := emptyQueue.buf ++ [ServerMsg.location_update sampleLoc] })
          ∈ deliverAll (ServerMsg.location_update sampleLoc) wStateAB.clients
      ∧ Event.sent aliceC (ServerMsg.location_update sampleLoc)
          ∈ fanEvents (ServerMsg.location_update sampleLoc) wStateAB.clients
      ∧ Event.queueClosed bobC
          ∈ fanEvents (ServerMsg.location_update sampleLoc) wStateAB.clients
      ∧ Event.removed bobC
          ∈ fanEvents (ServerMsg.location_update sampleLoc) wStateAB.clients) :=
  ⟨by decide, by decide, by decide,
   C1_broadcast_nonblocking_drop_policy wStateAB (ServerMsg.location_update sampleLoc)
     aliceC emptyQueue bobC fullQueue
     (by decide) (by decide) (by decide) (by decide) (by decide)⟩

/-- C2 fails on the code: the register case of `Hub.run` submits the
`user_connected` notice through `broadcastMessage`, a non-blocking
`select` on the hub's unbuffered `broadcast` channel whose only
receiver is the run loop itself — which is busy executing this very
register case.  The submission therefore always takes the `default`
branch: the notice is dropped and no active session receives it.  At
the spec's own scenario (alice active, empty store, bob registers),
alice's queue is unchanged and the only broadcast event is the drop. -/
theorem C2_register_user_connected_never_delivered :
    registerStep { clients := [(aliceC, emptyQueue)], locations := [] } bobC emptyQueue =
      .ok ({ clients := [(aliceC, emptyQueue), (bobC, emptyQueue)], locations := [] },
           [Event.broadcastDropped (userConnectedMsg bobC)])
    ∧ (broadcastMessage false (userConnectedMsg bobC)).1 = none := by
  exact ⟨by decide, by decide⟩

/-- C3 fails as stated: delivery is not unconditional.  If the hub's
run loop is not parked at its `select` at the instant `updateLocation`
submits the envelope (it is called from `readPump`, a different
goroutine, while the loop may be busy with any other case), the
non-blocking submission takes the `default` branch and the whole
broadcast is dropped.  Concretely: alice is the only active session,
her update is written to the store, yet her queue stays empty and no
`sent` event occurs — so not every active session receives the
envelope. -/
theorem C3_unconditional_delivery_counterexample :
    updateLocationStep wStateA "alice" sampleLoc false =
      .ok ({ clients := [(aliceC, emptyQueue)], locations := [("alice", sampleLoc)] },
           [Event.broadcastDropped (ServerMsg.location_update sampleLoc)])
    ∧ queueOf aliceC [(aliceC, emptyQueue)] = some emptyQueue
    ∧ emptyQueue.buf = []
    ∧ Event.sent aliceC (ServerMsg.location_update sampleLoc)
        ∉ [Event.broadcastDropped (ServerMsg.location_update sampleLoc)] :=
  ⟨by decide, by decide, by decide, by decide⟩

/-- C3 amended: `updateLocation(u, loc)` always overwrites the store
entry for `u` with `loc`, but the fan-out is best-effort.  When the run
loop is ready to receive the submission and every active session's
queue has room, every active session — the sender's own session
included — gets a `location_update` envelope whose payload is exactly
the new record appended to its queue; when the run loop is busy, the
store is still written but the entire broadcast is dropped and no
session receives it (saturated queues are instead torn down, per C1).
Moreover `updateLocation` is the only operation that writes a location
record: registration, broadcast fan-out and dequeues leave the store
untouched, and unregistration only deletes the departing identity's
key. -/
theorem C3_updateLocation_best_effort_fanout (st : HubState) (u : Ident)
    (loc : LocationData) (c : Client) (q : SendQueue) (m : ServerMsg) (k : Ident)
    (hopen : queuesOpen st.clients = true) (hroom : allHaveRoom st.clients = true)
    (hq : queueOf c st.clients = some q) (hqo : q.closed = false) :
    updateLocationStep st u loc true =
      .ok ({ clients := st.clients.map
               (fun p => (p.1, { p.2 with buf := p.2.buf ++ [ServerMsg.location_update loc] })),
             locations := setLoc u loc st.locations },
           Event.broadcastSubmitted (ServerMsg.location_update loc)
             :: st.clients.map (fun p => Event.sent p.1 (ServerMsg.location_update loc)))
    ∧ updateLocationStep st u loc false =
        .ok ({ clients := st.clients, locations := setLoc u loc st.locations },
             [Event.broadcastDropped (ServerMsg.location_update loc)])
    ∧ lookupLoc u (setLoc u loc st.locations) = some loc
    ∧ registerStep st c emptyQueue =
        .ok ({ clients := st.clients ++ [(c, snapQueue st.locations)],
               locations := st.locations },
             snapEvents st.locations c ++ [Event.broadcastDropped (userConnectedMsg c)])
    ∧ processBroadcast st m =
        .ok ({ clients := deliverAll m st.clients, locations := st.locations },
             fanEvents m st.clients)
    ∧ (dequeueStep st c).locations = st.locations
    ∧ unregisterStep st c =
        .ok ({ clients := removeClient c st.clients,
               locations := delLoc c.username st.locations },
             [Event.removed c, Event.queueClosed c,
              Event.broadcastDropped (userDisconnectedMsg c)])
    ∧ lookupLoc k (delLoc c.username st.locations) =
        (if k = c.username then none else lookupLoc k st.locations) := by
  refine ⟨?_, updateLocationStep_notReady st u loc,
    lookupLoc_setLoc_self u loc st.locations, registerStep_fresh st c,
    processBroadcast_open st m hopen, rfl, unregisterStep_present st c q hq hqo,
    lookupLoc_delLoc k c.username st.locations⟩
  rw [updateLocationStep_eq st u loc true hopen]
  simp [updResult, deliverAll_map _ _ hroom, fanEvents_map _ _ hroom]

/-- Witness for the amended C3: alice alone with an empty open queue;
a ready-loop update lands in the store and in her own queue, a
busy-loop update lands in the store only. -/
theorem C3_updateLocation_best_effort_fanout_witness :
    queuesOpen wStateA.clients = true
    ∧ allHaveRoom wStateA.clients = true
    ∧ queueOf aliceC wStateA.clients = some emptyQueue
    ∧ emptyQueue.closed = false
    ∧ (updateLocationStep wStateA "alice" sampleLoc true =
        .ok ({ clients := wStateA.clients.map
                 (fun p => (p.1, { p.2 with buf := p.2.buf ++ [ServerMsg.location_update sampleLoc] })),
               locations := setLoc "alice" sampleLoc wStateA.locations },
             Event.broadcastSubmitted (ServerMsg.location_update sampleLoc)
               :: wStateA.clients.map (fun p => Event.sent p.1 (ServerMsg.location_update sampleLoc)))
      ∧ updateLocationStep wStateA "alice" sampleLoc false =
          .ok ({ clients := wStateA.clients,
                 locations := setLoc "alice" sampleLoc wStateA.locations },
               [Event.broadcastDropped (ServerMsg.location_update sampleLoc)])
      ∧ lookupLoc "alice" (setLoc "alice" sampleLoc wStateA.locations) = some sampleLoc
      ∧ registerStep wStateA aliceC emptyQueue =
          .ok ({ clients := wStateA.clients ++ [(aliceC, snapQueue wStateA.locations)],
                 locations := wStateA.locations },
               snapEvents wStateA.locations aliceC
                 ++ [Event.broadcastDropped (userConnectedMsg aliceC)])
      ∧ processBroadcast wStateA (ServerMsg.location_update sampleLoc) =
          .ok ({ clients := deliverAll (ServerMsg.location_update sampleLoc) wStateA.clients,
                 locations := wStateA.locations },
               fanEvents (ServerMsg.location_update sampleLoc) wStateA.clients)
      ∧ (dequeueStep wStateA aliceC).locations = wStateA.locations
      ∧ unregisterStep wStateA aliceC =
          .ok ({ clients := removeClient aliceC wStateA.clients,
                 locations := delLoc aliceC.username wStateA.locations },
               [Event.removed aliceC, Event.queueClosed aliceC,
                Event.broadcastDropped (userDisconnectedMsg aliceC)])
      ∧ lookupLoc "bob" (delLoc aliceC.username wStateA.locations) =
          (if "bob" = aliceC.username then none else lookupLoc "bob" wStateA.locations)) :=
  ⟨by decide, by decide, by decide, by decide,
   C3_updateLocation_best_effort_fanout wStateA "alice" sampleLoc aliceC emptyQueue
     (ServerMsg.location_update sampleLoc) "bob"
     (by decide) (by decide) (by decide) (by decide)⟩

/-- C4 fails on the code: registration never seeds the PresenceStore.
After alice registers against the empty hub — a reachable state — she
is in the active set while the store has no key for her, so "a key
exists iff a session with that identity is currently registered" is
violated in its left-to-right direction. -/
theorem C4_presence_iff_invariant_counterexample :
    Reachable { clients := [(aliceC, emptyQueue)], locations := [] }
    ∧ queueOf aliceC ({ clients := [(aliceC, emptyQueue)], locations := [] } : HubState).clients
        = some emptyQueue
    ∧ aliceC.username = "alice"
    ∧ lookupLoc "alice"
        ({ clients := [(aliceC, emptyQueue)], locations := [] } : HubState).locations = none :=
  ⟨Reachable.register initHub { clients := [(aliceC, emptyQueue)], locations := [] }
     aliceC [Event.broadcastDropped (userConnectedMsg aliceC)]
     Reachable.init (by decide) (by decide),
   by decide, by decide, by decide⟩

/-- C4 amended: the PresenceStore is not synchronized with the active
set.  Keys change only through `updateLocation` (which sets exactly the
updated identity's entry) and through unregistration of an active
session (which deletes exactly the departing session's identity);
registration, broadcast fan-out and dequeues never touch the store.  In
particular a session can be in the active set while the store holds no
key for its identity. -/
theorem C4_presence_store_write_discipline (st : HubState) (c : Client)
    (q : SendQueue) (u : Ident) (loc : LocationData) (r : Bool) (m : ServerMsg)
    (k : Ident)
    (hopen : queuesOpen st.clients = true)
    (hq : queueOf c st.clients = some q) (hqo : q.closed = false) (hk : k ≠ u) :
    registerStep st c emptyQueue =
      .ok ({ clients := st.clients ++ [(c, snapQueue st.locations)],
             locations := st.locations },
           snapEvents st.locations c ++ [Event.broadcastDropped (userConnectedMsg c)])
    ∧ processBroadcast st m =
        .ok ({ clients := deliverAll m st.clients, locations := st.locations },
             fanEvents m st.clients)
    ∧ (dequeueStep st c).locations = st.locations
    ∧ unregisterStep st c =
        .ok ({ clients := removeClient c st.clients,
               locations := delLoc c.username st.locations },
             [Event.removed c, Event.queueClosed c,
              Event.broadcastDropped (userDisconnectedMsg c)])
    ∧ lookupLoc c.username (delLoc c.username st.locations) = none
    ∧ updateLocationStep st u loc r = .ok (updResult st u loc r)
    ∧ (updResult st u loc r).1.locations = setLoc u loc st.locations
    ∧ lookupLoc u (setLoc u loc st.locations) = some loc
    ∧ lookupLoc k (setLoc u loc st.locations) = lookupLoc k st.locations := by
  refine ⟨registerStep_fresh st c, processBroadcast_open st m hopen, rfl,
    unregisterStep_present st c q hq hqo, ?_,
    updateLocationStep_eq st u loc r hopen, updResult_locations st u loc r,
    lookupLoc_setLoc_self u loc st.locations, lookupLoc_setLoc_ne k u loc st.locations hk⟩
  rw [lookupLoc_delLoc]
  simp

/-- Witness for the amended C4 at alice's one-client state. -/
theorem C4_presence_store_write_discipline_witness :
    queuesOpen wStateA.clients = true
    ∧ queueOf aliceC wStateA.clients = some emptyQueue
    ∧ emptyQueue.closed = false
    ∧ ("bob" : Ident) ≠ "alice"
    ∧ (registerStep wStateA aliceC emptyQueue =
        .ok ({ clients := wStateA.clients ++ [(aliceC, snapQueue wStateA.locations)],
               locations := wStateA.locations },
             snapEvents wStateA.locations aliceC
               ++ [Event.broadcastDropped (userConnectedMsg aliceC)])
      ∧ processBroadcast wStateA (ServerMsg.location_update sampleLoc) =
          .ok ({ clients := deliverAll (ServerMsg.location_update sampleLoc) wStateA.clients,
                 locations := wStateA.locations },
               fanEvents (ServerMsg.location_update sampleLoc) wStateA.clients)
      ∧ (dequeueStep wStateA aliceC).locations = wStateA.locations
      ∧ unregisterStep wStateA aliceC =
          .ok ({ clients := removeClient aliceC wStateA.clients,
                 locations := delLoc aliceC.username wStateA.locations },
               [Event.removed aliceC, Event.queueClosed aliceC,
                Event.broadcastDropped (userDisconnectedMsg aliceC)])
      ∧ lookupLoc aliceC.username (delLoc aliceC.username wStateA.locations) = none
      ∧ updateLocationStep wStateA "alice" sampleLoc false =
          .ok (updResult wStateA "alice" sampleLoc false)
      ∧ (updResult wStateA "alice" sampleLoc false).1.locations =
          setLoc "alice" sampleLoc wStateA.locations
      ∧ lookupLoc "alice" (setLoc "alice" sampleLoc wStateA.locations) = some sampleLoc
      ∧ lookupLoc "bob" (setLoc "alice" sampleLoc wStateA.locations) =
          lookupLoc "bob" wStateA.locations) :=
  ⟨by decide, by decide, by decide, by decide,
   C4_presence_store_write_discipline wStateA aliceC emptyQueue "alice" sampleLoc false
     (ServerMsg.location_update sampleLoc) "bob"
     (by decide) (by decide) (by decide) (by decide)⟩

/-- C5: in every reachable hub state all active queues are open, so
queue saturation is never fatal to the hub loop: the fan-out always
returns normally (never panics), removes exactly the saturated
sessions, keeps every other session registered with its message
delivered and its queue open, and registration, unregistration and
location updates all return normally as well.  The dangerous
closed-queue-left-in-set scenario of the registration snapshot cannot
arise, because `handleWebSocket` registers every client with a freshly
made empty queue of capacity 256, whose snapshot send always succeeds
(`snapQueue` stays open). -/
theorem C5_saturation_disconnects_only_that_session (st : HubState) (m : ServerMsg)
    (c : Client) (u : Ident) (loc : LocationData) (r : Bool)
    (h : Reachable st) :
    queuesOpen st.clients = true
    ∧ processBroadcast st m =
        .ok ({ clients := deliverAll m st.clients, locations := st.locations },
             fanEvents m st.clients)
    ∧ queuesOpen (deliverAll m st.clients) = true
    ∧ registerStep st c emptyQueue =
        .ok ({ clients := st.clients ++ [(c, snapQueue st.locations)],
               locations := st.locations },
             snapEvents st.locations c ++ [Event.broadcastDropped (userConnectedMsg c)])
    ∧ (snapQueue st.locations).closed = false
    ∧ unregisterStep st c ≠ Except.error ()
    ∧ updateLocationStep st u loc r = .ok (updResult st u loc r) := by
  have hopen := reachable_queuesOpen st h
  exact ⟨hopen, processBroadcast_open st m hopen,
    queuesOpen_deliverAll m st.clients hopen, registerStep_fresh st c,
    snapQueue_closed st.locations, unregisterStep_total st c hopen,
    updateLocationStep_eq st u loc r hopen⟩

/-- Witness for C5 at the initial hub state. -/
theorem C5_saturation_disconnects_only_that_session_witness :
    Reachable initHub
    ∧ (queuesOpen initHub.clients = true
      ∧ processBroadcast initHub (ServerMsg.location_update sampleLoc) =
          .ok ({ clients := deliverAll (ServerMsg.location_update sampleLoc) initHub.clients,
                 locations := initHub.locations },
               fanEvents (ServerMsg.location_update sampleLoc) initHub.clients)
      ∧ queuesOpen (deliverAll (ServerMsg.location_update sampleLoc) initHub.clients) = true
      ∧ registerStep initHub aliceC emptyQueue =
          .ok ({ clients := initHub.clients ++ [(aliceC, snapQueue initHub.locations)],
                 locations := initHub.locations },
               snapEvents initHub.locations aliceC
                 ++ [Event.broadcastDropped (userConnectedMsg aliceC)])
      ∧ (snapQueue initHub.locations).closed = false
      ∧ unregisterStep initHub aliceC ≠ Except.error ()
      ∧ updateLocationStep initHub "alice" sampleLoc true =
          .ok (updResult initHub "alice" sampleLoc true)) :=
  ⟨Reachable.init,
   C5_saturation_disconnects_only_that_session initHub (ServerMsg.location_update sampleLoc)
     aliceC "alice" sampleLoc true Reachable.init⟩

/-- C6: unregistration is idempotent.  Unregistering a session that is
not in the active set leaves the state untouched and emits nothing; the
first unregister of an active session removes it from the set, deletes
its PresenceStore entry, closes its queue, and submits exactly one
`user_disconnected` notice; immediately afterwards the session is gone
from the set, so a repeated unregister is a no-op with no duplicate
notice. -/
theorem C6_unregister_idempotent (st st2 : HubState) (c : Client) (q : SendQueue)
    (hq : queueOf c st.clients = some q) (hqo : q.closed = false)
    (h2 : queueOf c st2.clients = none) :
    unregisterStep st2 c = .ok (st2, [])
    ∧ unregisterStep st c =
        .ok ({ clients := removeClient c st.clients,
               locations := delLoc c.username st.locations },
             [Event.removed c, Event.queueClosed c,
              Event.broadcastDropped (userDisconnectedMsg c)])
    ∧ queueOf c (removeClient c st.clients) = none
    ∧ unregisterStep
        { clients := removeClient c st.clients,
          locations := delLoc c.username st.locations } c =
      .ok ({ clients := removeClient c st.clients,
             locations := delLoc c.username st.locations }, []) := by
  refine ⟨unregisterStep_absent st2 c h2, unregisterStep_present st c q hq hqo,
    queueOf_removeClient c st.clients, ?_⟩
  exact unregisterStep_absent _ c (queueOf_removeClient c st.clients)

/-- Witness for C6: first and second unregister of alice. -/
theorem C6_unregister_idempotent_witness :
    queueOf aliceC wStateA.clients = some emptyQueue
    ∧ emptyQueue.closed = false
    ∧ queueOf aliceC initHub.clients = none
    ∧ (unregisterStep initHub aliceC = .ok (initHub, [])
      ∧ unregisterStep wStateA aliceC =
          .ok ({ clients := removeClient aliceC wStateA.clients,
                 locations := delLoc aliceC.username wStateA.locations },
               [Event.removed aliceC, Event.queueClosed aliceC,
                Event.broadcastDropped (userDisconnectedMsg aliceC)])
      ∧ queueOf aliceC (removeClient aliceC wStateA.clients) = none
      ∧ unregisterStep
          { clients := removeClient aliceC wStateA.clients,
            locations := delLoc aliceC.username wStateA.locations } aliceC =
        .ok ({ clients := removeClient aliceC wStateA.clients,
               locations := delLoc aliceC.username wStateA.locations }, [])) :=
  ⟨by decide, by decide, by decide,
   C6_unregister_idempotent wStateA initHub aliceC emptyQueue
     (by decide) (by decide) (by decide)⟩

/-- C7: on an inbound `location_update` whose payload carries any
username, `readPump` overwrites the payload's username field with the
session's own registered identity before forwarding, so the store
update is keyed under the session's identity, the stored record's
username equals that identity, and no other identity's entry is created
or modified. -/
theorem C7_identity_spoof_rejected (st : HubState) (c : Client) (r : Bool)
    (d : LocationData) (k : Ident)
    (hopen : queuesOpen st.clients = true) (hk : k ≠ c.username) :
    readPumpStep st c r (ReadEvent.frame (Frame.envelope "location_update" (Payload.loc d))) =
      .ok ((updResult st c.username { d with username := c.username } r).1,
           (updResult st c.username { d with username := c.username } r).2,
           LoopAction.continues)
    ∧ ({ d with username := c.username } : LocationData).username = c.username
    ∧ lookupLoc c.username
        ((updResult st c.username { d with username := c.username } r).1.locations) =
      some { d with username := c.username }
    ∧ lookupLoc k
        ((updResult st c.username { d with username := c.username } r).1.locations) =
      lookupLoc k st.locations := by
  refine ⟨readPumpStep_loc st c r d hopen, rfl, ?_, ?_⟩
  · rw [updResult_locations]
    exact lookupLoc_setLoc_self c.username _ st.locations
  · rw [updResult_locations]
    exact lookupLoc_setLoc_ne k c.username _ st.locations hk

/-- Witness for C7: alice's session receives a payload claiming to be
bob; the store update is keyed under alice and bob's key is untouched. -/
theorem C7_identity_spoof_rejected_witness :
    queuesOpen wStateA.clients = true
    ∧ ("bob" : Ident) ≠ aliceC.username
    ∧ (readPumpStep wStateA aliceC false
        (ReadEvent.frame (Frame.envelope "location_update"
          (Payload.loc { username := "bob", latitude := 35, longitude := 135,
                         timestamp := 1000 }))) =
        .ok ((updResult wStateA aliceC.username
                { username := aliceC.username, latitude := 35, longitude := 135,
                  timestamp := 1000 } false).1,
             (updResult wStateA aliceC.username
                { username := aliceC.username, latitude := 35, longitude := 135,
                  timestamp := 1000 } false).2,
             LoopAction.continues)
      ∧ ({ username := aliceC.username, latitude := 35, longitude := 135,
           timestamp := 1000 } : LocationData).username = aliceC.username
      ∧ lookupLoc aliceC.username
          ((updResult wStateA aliceC.username
              { username := aliceC.username, latitude := 35, longitude := 135,
                timestamp := 1000 } false).1.locations) =
        some { username := aliceC.username, latitude := 35, longitude := 135,
               timestamp := 1000 }
      ∧ lookupLoc "bob"
          ((updResult wStateA aliceC.username
              { username := aliceC.username, latitude := 35, longitude := 135,
                timestamp := 1000 } false).1.locations) =
        lookupLoc "bob" wStateA.locations) :=
  ⟨by decide, by decide,
   C7_identity_spoof_rejected wStateA aliceC false
     { username := "bob", latitude := 35, longitude := 135, timestamp := 1000 }
     "bob" (by decide) (by decide)⟩

/-- C8 fails on the code: an envelope-level decode failure is NOT
treated as a connection error.  `readPump` logs the unmarshal error and
executes `continue`, so the session is not terminated — the loop goes
on exactly as for a payload-level failure. -/
theorem C8_envelope_decode_failure_not_fatal_counterexample :
    readPumpStep initHub aliceC false (ReadEvent.frame Frame.invalid) =
      .ok (initHub, [], LoopAction.continues)
    ∧ LoopAction.continues ≠ LoopAction.exits :=
  ⟨by decide, by decide⟩

/-- C8 amended: decode failures at BOTH the envelope level and the
payload level are recoverable — the frame is logged and skipped with no
state mutation and the inbound loop continues; only a transport receive
failure makes the loop exit (which then triggers unregistration via the
deferred send). -/
theorem C8_decode_failures_recoverable (st : HubState) (c : Client) (r : Bool)
    (tag : String) :
    readPumpStep st c r (ReadEvent.frame Frame.invalid) =
      .ok (st, [], LoopAction.continues)
    ∧ readPumpStep st c r (ReadEvent.frame (Frame.envelope tag Payload.bad)) =
        .ok (st, [], LoopAction.continues)
    ∧ readPumpStep st c r ReadEvent.connError = .ok (st, [], LoopAction.exits) := by
  refine ⟨rfl, ?_, rfl⟩
  by_cases htag : tag = "location_update" <;> simp [readPumpStep, htag]

/-- C9: the hub's broadcast submission step never blocks — it is a
total function of the channel's instantaneous readiness.  With no
receiver ready the serialized message is dropped (only the log event is
produced) for every envelope kind; and because the run loop is the
channel's sole receiver, the `user_connected` and `user_disconnected`
notices submitted from inside its own register/unregister cases are
always dropped, as is a `location_update` submitted while the loop is
busy. -/
theorem C9_broadcast_submission_never_blocks (st : HubState) (c : Client)
    (u : Ident) (loc : LocationData) (m : ServerMsg) (q : SendQueue)
    (hq : queueOf c st.clients = some q) (hqo : q.closed = false) :
    broadcastMessage false m = (none, Event.broadcastDropped m)
    ∧ broadcastMessage true m = (some m, Event.broadcastSubmitted m)
    ∧ registerStep st c emptyQueue =
        .ok ({ clients := st.clients ++ [(c, snapQueue st.locations)],
               locations := st.locations },
             snapEvents st.locations c ++ [Event.broadcastDropped (userConnectedMsg c)])
    ∧ unregisterStep st c =
        .ok ({ clients := removeClient c st.clients,
               locations := delLoc c.username st.locations },
             [Event.removed c, Event.queueClosed c,
              Event.broadcastDropped (userDisconnectedMsg c)])
    ∧ updateLocationStep st u loc false =
        .ok ({ clients := st.clients, locations := setLoc u loc st.locations },
             [Event.broadcastDropped (ServerMsg.location_update loc)]) :=
  ⟨rfl, rfl, registerStep_fresh st c, unregisterStep_present st c q hq hqo,
   updateLocationStep_notReady st u loc⟩

/-- Witness for C9 at alice's one-client state. -/
theorem C9_broadcast_submission_never_blocks_witness :
    queueOf aliceC wStateA.clients = some emptyQueue
    ∧ emptyQueue.closed = false
    ∧ (broadcastMessage false (userConnectedMsg bobC) =
        (none, Event.broadcastDropped (userConnectedMsg bobC))
      ∧ broadcastMessage true (userConnectedMsg bobC) =
          (some (userConnectedMsg bobC), Event.broadcastSubmitted (userConnectedMsg bobC))
      ∧ registerStep wStateA aliceC emptyQueue =
          .ok ({ clients := wStateA.clients ++ [(aliceC, snapQueue wStateA.locations)],
                 locations := wStateA.locations },
               snapEvents wStateA.locations aliceC
                 ++ [Event.broadcastDropped (userConnectedMsg aliceC)])
      ∧ unregisterStep wStateA aliceC =
          .ok ({ clients := removeClient aliceC wStateA.clients,
                 locations := delLoc aliceC.username wStateA.locations },
               [Event.removed aliceC, Event.queueClosed aliceC,
                Event.broadcastDropped (userDisconnectedMsg aliceC)])
      ∧ updateLocationStep wStateA "alice" sampleLoc false =
          .ok ({ clients := wStateA.clients,
                 locations := setLoc "alice" sampleLoc wStateA.locations },
               [Event.broadcastDropped (ServerMsg.location_update sampleLoc)])) :=
  ⟨by decide, by decide,
   C9_broadcast_submission_never_blocks wStateA aliceC "alice" sampleLoc
     (userConnectedMsg bobC) emptyQueue (by decide) (by decide)⟩

/-- C10: when the registration snapshot send finds the new session's
queue full (open but at capacity with a non-empty store), the
`default` branch only closes the queue: the session stays in the active
set, nobody is removed, and no `user_disconnected` notice is produced.
The session is therefore still targeted by a subsequent broadcast
fan-out, whose non-blocking send then hits the closed channel — in Go a
send on a closed channel, i.e. a panic, modelled here as `.error ()`. -/
theorem C10_snapshot_saturation_closes_queue_but_keeps_session (st : HubState)
    (c : Client) (q : SendQueue) (m : ServerMsg)
    (hqo : q.closed = false) (hfull : ¬ q.buf.length < sendCap)
    (hne : st.locations.isEmpty = false) :
    registerStep st c q =
      .ok ({ clients := st.clients ++ [(c, { q with closed := true })],
             locations := st.locations },
           [Event.queueClosed c, Event.broadcastDropped (userConnectedMsg c)])
    ∧ (c, { q with closed := true }) ∈ st.clients ++ [(c, { q with closed := true })]
    ∧ processBroadcast
        { clients := st.clients ++ [(c, { q with closed := true })],
          locations := st.locations } m = .error () := by
  refine ⟨?_, List.mem_append_right _ (List.mem_singleton.mpr rfl), ?_⟩
  · simp [registerStep, sendCurrentLocations, hne, trySend, hqo, hfull, closeChan,
      broadcastMessage]
  · have hmem : ((c, { q with closed := true }) : Client × SendQueue)
        ∈ st.clients ++ [(c, { q with closed := true })] :=
      List.mem_append_right _ (List.mem_singleton.mpr rfl)
    have herr := fanOut_closed m (st.clients ++ [(c, { q with closed := true })])
      (c, { q with closed := true }) hmem rfl
    simp [processBroadcast, herr]

/-- Witness for C10: bob registers with a saturated queue while alice's
location is present; his queue is closed, he stays in the set, and the
next fan-out hits the closed channel. -/
theorem C10_snapshot_saturation_witness :
    fullQueue.closed = false
    ∧ ¬ fullQueue.buf.length < sendCap
    ∧ wStateLoc.locations.isEmpty = false
    ∧ (registerStep wStateLoc bobC fullQueue =
        .ok ({ clients := wStateLoc.clients ++ [(bobC, { fullQueue with closed := true })],
               locations := wStateLoc.locations },
             [Event.queueClosed bobC, Event.broadcastDropped (userConnectedMsg bobC)])
      ∧ (bobC, { fullQueue with closed := true })
          ∈ wStateLoc.clients ++ [(bobC, { fullQueue with closed := true })]
      ∧ processBroadcast
          { clients := wStateLoc.clients ++ [(bobC, { fullQueue with closed := true })],
            locations := wStateLoc.locations }
          (ServerMsg.location_update sampleLoc) = .error ()) :=
  ⟨by decide, by decide, by decide,
   C10_snapshot_saturation_closes_queue_but_keeps_session wStateLoc bobC fullQueue
     (ServerMsg.location_update sampleLoc) (by decide) (by decide) (by decide)⟩
